import Mathlib

/-!
Verification of the outline rich-text engine: a shallow embedding of the
view-model update pipeline (`OutlineEditor.update`) and of the
selection-driven mutation algebra (`insertText`, `deleteCharacter`,
`removeSegment`, `formatText`, `patchStyleText`, the `RootNode` guards),
together with theorems settling the specified properties.

The mutation helpers in `OutlineSelectionHelpers.js` and the editor state
machine in `OutlineEditor.js` are translated statement by statement.  The
node-class primitives they call (`OutlineNode`, `OutlineTextNode`,
`OutlineBlockNode`, `OutlineSelection`) are not part of the sources at hand,
so those primitives are modelled from the spec; each such definition carries
a doc comment saying so.
-/

/-- Selection point type: a point addresses either a character offset in a
text node or a child index in a block node. -/
inductive PType
  | text
  | block
deriving DecidableEq, Repr

/-- A selection point: `(nodeKey, offset, type)`. -/
structure PointS where
  key : Nat
  offset : Nat
  ptype : PType
deriving DecidableEq, Repr

/-- A selection: anchor/focus point pair plus the pending-insert text format
bitset carried by the selection. -/
structure SelectionS where
  anchor : PointS
  focus : PointS
  textFormat : Nat
deriving DecidableEq, Repr

/-- Payload of a text leaf: string content, format bitset, style string and
the mutability classes (normal / segmented / immutable / inert), plus the
composition flag and the hashtag marker used by the helpers. -/
structure TextProps where
  text : String
  format : Nat
  style : String
  segmented : Bool
  immutable : Bool
  inert : Bool
  canInsertAtEnd : Bool
  composing : Bool
  hashtag : Bool
deriving DecidableEq, Repr

/-- Default text-leaf payload, as produced by `createTextNode`. -/
def defaultTextProps (s : String) : TextProps :=
  { text := s, format := 0, style := "", segmented := false, immutable := false,
    inert := false, canInsertAtEnd := true, composing := false, hashtag := false }

/-- A node is either a text leaf or a block (container); blocks carry their
ordered child-key list and whether they are the root. -/
inductive NodeBody
  | text (p : TextProps)
  | block (children : List Nat) (isRoot : Bool)
deriving DecidableEq, Repr

/-- A tree node: parent link (by key) plus its body. -/
structure NodeS where
  parent : Option Nat
  body : NodeBody
deriving DecidableEq, Repr

/-- The node map of a view model together with the fresh-key counter. -/
structure TreeS where
  nodes : List (Nat × NodeS)
  nextKey : Nat
deriving DecidableEq, Repr

/-- Whole editing state threaded through the mutation algebra: node tree,
selection, and the css-to-styles memo map used by `patchStyleText`. -/
structure EdState where
  tree : TreeS
  sel : SelectionS
  styleCache : List (String × List (String × String))
deriving DecidableEq, Repr

/-- Look a node up by key. -/
def lookupNode (st : EdState) (k : Nat) : Option NodeS :=
  st.tree.nodes.lookup k

/-- Replace (or insert) the entry for key `k` in a node list. -/
def setNodeList (m : List (Nat × NodeS)) (k : Nat) (n : NodeS) : List (Nat × NodeS) :=
  if m.any (fun e => e.1 == k) then
    m.map (fun e => if e.1 == k then (k, n) else e)
  else m ++ [(k, n)]

/-- Write a node at a key. -/
def setNodeK (st : EdState) (k : Nat) (n : NodeS) : EdState :=
  { st with tree := { st.tree with nodes := setNodeList st.tree.nodes k n } }

/-- Drop the entry for a key. -/
def delNodeK (st : EdState) (k : Nat) : EdState :=
  { st with tree := { st.tree with nodes := st.tree.nodes.filter (fun e => e.1 != k) } }

/-- Parent key of a node, if any. -/
def parentOfK (st : EdState) (k : Nat) : Option Nat :=
  match lookupNode st k with
  | some n => n.parent
  | none => none

/-- Child-key list of a block node (empty for leaves and missing keys). -/
def childrenOfK (st : EdState) (k : Nat) : List Nat :=
  match lookupNode st k with
  | some ⟨_, NodeBody.block cs _⟩ => cs
  | _ => []

/-- Text payload of a node, when it is a text leaf. -/
def getTextProps (st : EdState) (k : Nat) : Option TextProps :=
  match lookupNode st k with
  | some ⟨_, NodeBody.text p⟩ => some p
  | _ => none

/-- `isTextNode`. -/
def isTextK (st : EdState) (k : Nat) : Bool :=
  (getTextProps st k).isSome

/-- `isBlockNode`. -/
def isBlockK (st : EdState) (k : Nat) : Bool :=
  match lookupNode st k with
  | some ⟨_, NodeBody.block _ _⟩ => true
  | _ => false

/-- `getTextContent` of a text leaf (empty for anything else). -/
def textContentK (st : EdState) (k : Nat) : String :=
  match getTextProps st k with
  | some p => p.text
  | none => ""

/-- `isSegmented`. -/
def isSegmentedK (st : EdState) (k : Nat) : Bool :=
  match getTextProps st k with
  | some p => p.segmented
  | none => false

/-- `isImmutableOrInert` (shared helper): immutable or inert text leaf. -/
def isImmutableOrInertK (st : EdState) (k : Nat) : Bool :=
  match getTextProps st k with
  | some p => p.immutable || p.inert
  | none => false

/-- `isComposing` on a node, modelled as a boolean flag per the spec. -/
def isComposingK (st : EdState) (k : Nat) : Bool :=
  match getTextProps st k with
  | some p => p.composing
  | none => false

/-- `isHashtagNode`. -/
def isHashtagK (st : EdState) (k : Nat) : Bool :=
  match getTextProps st k with
  | some p => p.hashtag
  | none => false

/-- Modelled from the spec: `isSimpleText` holds of a plain text leaf
(not a hashtag, not immutable, not inert). -/
def isSimpleTextK (st : EdState) (k : Nat) : Bool :=
  match getTextProps st k with
  | some p => !p.hashtag && !p.immutable && !p.inert
  | none => false

/-- Update the text payload of a node. -/
def setTextPropsK (st : EdState) (k : Nat) (p : TextProps) : EdState :=
  match lookupNode st k with
  | some n => setNodeK st k { n with body := NodeBody.text p }
  | none => st

/-- `setTextContent`. -/
def setTextContentK (st : EdState) (k : Nat) (s : String) : EdState :=
  match getTextProps st k with
  | some p => setTextPropsK st k { p with text := s }
  | none => st

/-- `getFormat` of a text leaf. -/
def formatOfK (st : EdState) (k : Nat) : Nat :=
  match getTextProps st k with
  | some p => p.format
  | none => 0

/-- `setFormat`. -/
def setFormatK (st : EdState) (k : Nat) (f : Nat) : EdState :=
  match getTextProps st k with
  | some p => setTextPropsK st k { p with format := f }
  | none => st

/-- `getStyle`. -/
def styleOfK (st : EdState) (k : Nat) : String :=
  match getTextProps st k with
  | some p => p.style
  | none => ""

/-- `setStyle`. -/
def setStyleK (st : EdState) (k : Nat) (s : String) : EdState :=
  match getTextProps st k with
  | some p => setTextPropsK st k { p with style := s }
  | none => st

/-- Rewrite the child list of a block node. -/
def mapChildrenK (st : EdState) (k : Nat) (f : List Nat → List Nat) : EdState :=
  match lookupNode st k with
  | some ⟨par, NodeBody.block cs isRoot⟩ =>
      setNodeK st k ⟨par, NodeBody.block (f cs) isRoot⟩
  | _ => st

/-- Set the parent link of a node. -/
def setParentK (st : EdState) (k : Nat) (p : Option Nat) : EdState :=
  match lookupNode st k with
  | some n => setNodeK st k { n with parent := p }
  | none => st

/-- `getIndexWithinParent`. -/
def indexWithinParentK (st : EdState) (k : Nat) : Nat :=
  match parentOfK st k with
  | some p => (childrenOfK st p).findIdx (fun c => c == k)
  | none => 0

/-- Detach a node from its parent child list (the node entry stays). -/
def detachK (st : EdState) (k : Nat) : EdState :=
  match parentOfK st k with
  | some p =>
      let st2 := mapChildrenK st p (fun cs => cs.filter (fun c => c != k))
      setParentK st2 k none
  | none => st

/-- Modelled from the spec: `remove` detaches the node from its parent and
drops the detached entry (garbage collection of detached nodes). -/
def removeNodeK (st : EdState) (k : Nat) : EdState :=
  match lookupNode st k with
  | some n =>
      let st2 :=
        match n.parent with
        | some p => mapChildrenK st p (fun cs => cs.filter (fun c => c != k))
        | none => st
      delNodeK st2 k
  | none => st

/-- Insert `x` at position `i` of a list. -/
def insertAtIdx (i : Nat) (x : Nat) (cs : List Nat) : List Nat :=
  cs.take i ++ [x] ++ cs.drop i

/-- Modelled from the spec: `insertAfter` detaches the inserted node, then
splices it into the reference node's parent right after the reference. -/
def insertAfterNodeK (st : EdState) (refK newK : Nat) : EdState :=
  match parentOfK st refK with
  | some p =>
      let st2 := detachK st newK
      let st3 := setParentK st2 newK (some p)
      let idx := (childrenOfK st3 p).findIdx (fun c => c == refK)
      mapChildrenK st3 p (insertAtIdx (idx + 1) newK)
  | none => st

/-- Modelled from the spec: `insertBefore`. -/
def insertBeforeNodeK (st : EdState) (refK newK : Nat) : EdState :=
  match parentOfK st refK with
  | some p =>
      let st2 := detachK st newK
      let st3 := setParentK st2 newK (some p)
      let idx := (childrenOfK st3 p).findIdx (fun c => c == refK)
      mapChildrenK st3 p (insertAtIdx idx newK)
  | none => st

/-- Modelled from the spec: `append` a child to a block. -/
def appendChildK (st : EdState) (blockK childK : Nat) : EdState :=
  let st2 := detachK st childK
  let st3 := setParentK st2 childK (some blockK)
  mapChildrenK st3 blockK (fun cs => cs ++ [childK])

/-- Modelled from the spec: `replace` puts the new node at the old node's
position in its parent and drops the old node. -/
def replaceNodeK (st : EdState) (oldK newK : Nat) : EdState :=
  match parentOfK st oldK with
  | some p =>
      let st2 := detachK st newK
      let st3 := setParentK st2 newK (some p)
      let st4 := mapChildrenK st3 p
        (fun cs => cs.map (fun c => if c == oldK then newK else c))
      delNodeK st4 oldK
  | none => st

/-- Modelled from the spec: `createTextNode` allocates a fresh plain text
leaf (not yet attached). -/
def createTextNodeSt (st : EdState) (s : String) : EdState × Nat :=
  let k := st.tree.nextKey
  let st2 :=
    { st with tree :=
        { nodes := st.tree.nodes ++ [(k, ⟨none, NodeBody.text (defaultTextProps s)⟩)],
          nextKey := k + 1 } }
  (st2, k)

/-- `getPreviousSibling`. -/
def getPreviousSiblingK (st : EdState) (k : Nat) : Option Nat :=
  match parentOfK st k with
  | some p =>
      let cs := childrenOfK st p
      let i := cs.findIdx (fun c => c == k)
      if i == 0 then none else cs[i - 1]?
  | none => none

/-- `getNextSibling`. -/
def getNextSiblingK (st : EdState) (k : Nat) : Option Nat :=
  match parentOfK st k with
  | some p =>
      let cs := childrenOfK st p
      let i := cs.findIdx (fun c => c == k)
      cs[i + 1]?
  | none => none

/-- Ancestor keys of a node, nearest first (`getParentKeys`), fuel-bounded
by the map size. -/
def parentChainAux (st : EdState) : Nat → Nat → List Nat
  | 0, _ => []
  | fuel + 1, k =>
    match parentOfK st k with
    | some p => p :: parentChainAux st fuel p
    | none => []

/-- `getParentKeys`. -/
def getParentKeysK (st : EdState) (k : Nat) : List Nat :=
  parentChainAux st (st.tree.nodes.length + 1) k

/-- `isAttached`: the parent chain reaches the root. -/
def isAttachedAux (st : EdState) : Nat → Nat → Bool
  | 0, _ => false
  | fuel + 1, k =>
    match lookupNode st k with
    | none => false
    | some n =>
      match n.parent with
      | some p => isAttachedAux st fuel p
      | none =>
        match n.body with
        | NodeBody.block _ true => true
        | _ => false

/-- `isAttached`. -/
def isAttachedK (st : EdState) (k : Nat) : Bool :=
  isAttachedAux st (st.tree.nodes.length + 1) k

/-- Index path of a node from the root (list of child indices), fuel-bounded. -/
def pathToAux (st : EdState) : Nat → Nat → List Nat
  | 0, _ => []
  | fuel + 1, k =>
    match parentOfK st k with
    | none => []
    | some p => pathToAux st fuel p ++ [(childrenOfK st p).findIdx (fun c => c == k)]

/-- Document position of a selection point: index path of its node followed
by the point offset. -/
def pointPath (st : EdState) (pt : PointS) : List Nat :=
  pathToAux st (st.tree.nodes.length + 1) pt.key ++ [pt.offset]

/-- Strict lexicographic order on index paths (a proper prefix comes first). -/
def pathLtB : List Nat → List Nat → Bool
  | [], [] => false
  | [], _ :: _ => true
  | _ :: _, [] => false
  | a :: as, b :: bs => a < b || (a == b && pathLtB as bs)

/-- Non-strict path order. -/
def pathLeB (a b : List Nat) : Bool :=
  pathLtB a b || a == b

/-- Modelled from the spec: `isBefore` compares document-order positions by
walking to a common ancestor and comparing sibling index / offset. -/
def pointIsBefore (st : EdState) (a b : PointS) : Bool :=
  pathLtB (pointPath st a) (pointPath st b)

/-- `isCollapsed`: anchor and focus denote the same point. -/
def isCollapsedS (sel : SelectionS) : Bool :=
  sel.anchor == sel.focus

/-- Key of the root node. -/
def rootKeyOf (st : EdState) : Option Nat :=
  (st.tree.nodes.find? (fun e =>
    match e.2.body with
    | NodeBody.block _ true => e.2.parent == none
    | _ => false)).map (fun e => e.1)

/-- Leaves under a node in document order, fuel-bounded. -/
def leavesUnderK (st : EdState) : Nat → Nat → List Nat
  | 0, _ => []
  | fuel + 1, k =>
    match lookupNode st k with
    | some ⟨_, NodeBody.block cs _⟩ =>
        (cs.map (leavesUnderK st fuel)).foldr (fun a b => a ++ b) []
    | some _ => [k]
    | none => []

/-- All leaves of the document in order. -/
def documentLeaves (st : EdState) : List Nat :=
  match rootKeyOf st with
  | some r => leavesUnderK st (st.tree.nodes.length + 1) r
  | none => []

/-- Character length of a leaf. -/
def leafLen (st : EdState) (k : Nat) : Nat :=
  (textContentK st k).length

/-- Modelled from the spec: `getNodes` returns the ordered sequence of leaf
nodes spanned by `[anchor, focus]` in document order, inclusive of
partial-boundary leaves at both ends; for a collapsed selection within a
single leaf it returns that one leaf. -/
def getNodesOfSelection (st : EdState) : List Nat :=
  let p1 := pointPath st st.sel.anchor
  let p2 := pointPath st st.sel.focus
  let lo := if pathLtB p1 p2 then p1 else p2
  let hi := if pathLtB p1 p2 then p2 else p1
  (documentLeaves st).filter (fun k =>
    let base := pathToAux st (st.tree.nodes.length + 1) k
    pathLeB (base ++ [0]) hi && pathLeB lo (base ++ [leafLen st k]))

/-- Concatenated text content of the document. -/
def documentText (st : EdState) : String :=
  String.join ((documentLeaves st).map (fun k => textContentK st k))

/-- Set the selection to a text range inside one node
(`node.select(aOff, fOff)`). -/
def selectNodeRange (st : EdState) (k aOff fOff : Nat) : EdState :=
  { st with sel := { st.sel with
      anchor := ⟨k, aOff, PType.text⟩, focus := ⟨k, fOff, PType.text⟩ } }

/-- `node.select()` with no arguments: caret at the end of the node. -/
def selectNodeEnd (st : EdState) (k : Nat) : EdState :=
  selectNodeRange st k (textContentK st k).length (textContentK st k).length

/-- Modelled from the spec: `spliceText` replaces the character range
`[offset, offset+delCount)` by `newText` in place; with `moveSelection` the
selection collapses after the inserted text. -/
def spliceTextNodeK (st : EdState) (k : Nat) (offset delCount : Nat)
    (newText : String) (moveSelection : Bool) : EdState :=
  match getTextProps st k with
  | none => st
  | some p =>
    let t2 := p.text.take offset ++ newText ++ p.text.drop (offset + delCount)
    let st2 := setTextPropsK st k { p with text := t2 }
    if moveSelection then
      selectNodeRange st2 k (offset + newText.length) (offset + newText.length)
    else st2

/-- Deduplicate a list of offsets, keeping the first occurrence. -/
def dedupKeep (l : List Nat) : List Nat :=
  l.foldl (fun acc x => if acc.contains x then acc else acc ++ [x]) []

/-- Substring `[a, b)` of a string. -/
def strSlice (s : String) (a b : Nat) : String :=
  (s.drop a).take (b - a)

/-- Modelled from the spec: `splitText` splits a text leaf at the given
offsets; the first piece keeps the node's key, later pieces become fresh
leaves with the same format/style/flags, inserted right after it.  Returns
the piece keys in order. -/
def splitTextNodeK (st : EdState) (k : Nat) (offs : List Nat) : EdState × List Nat :=
  match getTextProps st k with
  | none => (st, [k])
  | some p =>
    let len := p.text.length
    let cuts := dedupKeep (offs.filter (fun o => o != 0 && o < len))
    match cuts with
    | [] => (st, [k])
    | _ =>
      let bounds := 0 :: (cuts ++ [len])
      let pieces := (bounds.zip (cuts ++ [len])).map (fun ab => strSlice p.text ab.1 ab.2)
      let st2 := setTextPropsK st k { p with text := pieces.headD p.text }
      (pieces.drop 1).foldl
        (fun acc piece =>
          let (stA, keys) := acc
          let refK := keys.getLastD k
          let (stB, nk) := createTextNodeSt stA ""
          let stC := setTextPropsK stB nk { p with text := piece }
          let stD := insertAfterNodeK stC refK nk
          (stD, keys ++ [nk]))
        (st2, [k])

/-- `transferStartingBlockPointToTextPoint`: materialize an empty text leaf
at a block point and retarget the start (and, when needed, end) point to it.
`startIsAnchor` says which end of the selection is the start point. -/
def transferStartingBlockPointToTextPoint (st : EdState) (startIsAnchor : Bool) : EdState :=
  let start := if startIsAnchor then st.sel.anchor else st.sel.focus
  let blockKey := start.key
  let placement := (childrenOfK st blockKey)[start.offset]?
  let (st2, textKey) := createTextNodeSt st ""
  let st3 :=
    match placement with
    | none => appendChildK st2 blockKey textKey
    | some pk => insertBeforeNodeK st2 pk textKey
  let endP := if startIsAnchor then st3.sel.focus else st3.sel.anchor
  let endP2 :=
    if endP.ptype == PType.block && endP.key == blockKey then
      if endP.offset == start.offset then (⟨textKey, 0, PType.text⟩ : PointS)
      else { endP with offset := endP.offset + 1 }
    else endP
  let start2 : PointS := ⟨textKey, 0, PType.text⟩
  if startIsAnchor then
    { st3 with sel := { st3.sel with anchor := start2, focus := endP2 } }
  else
    { st3 with sel := { st3.sel with anchor := endP2, focus := start2 } }

/-- The common tail of both `insertText` branches: splice the text into the
first node with selection restore, remove the node when it became empty,
otherwise compensate the anchor offset by `-text.length` when the node is in
an in-flight composition. -/
def spliceTextAndFixComposingAnchor (st : EdState) (k : Nat) (offset delCount : Nat)
    (text : String) : EdState :=
  let st2 := spliceTextNodeK st k offset delCount text true
  if textContentK st2 k == "" then removeNodeK st2 k
  else if isComposingK st2 k && st2.sel.anchor.ptype == PType.text then
    { st2 with sel := { st2.sel with
        anchor := { st2.sel.anchor with offset := st2.sel.anchor.offset - text.length } } }
  else st2

/-- One reverse step of the last-block child walk of `insertText`: move
still-attached children that are not part of the selection (or are the last
node) after the first node, remove the selected ones, stop at the first
node. -/
def moveOrRemoveRev (firstK lastK : Nat) (selSet : List Nat) (blocksEq : Bool) :
    EdState → List Nat → EdState
  | st, [] => st
  | st, c :: rest =>
    if c == firstK then st
    else
      let st2 :=
        if isAttachedK st c then
          if !(selSet.contains c) || c == lastK then
            if !blocksEq then insertAfterNodeK st firstK c else st
          else removeNodeK st c
        else st
      moveOrRemoveRev firstK lastK selSet blocksEq st2 rest

/-- The parent-chain walk of `insertText` that unmarks ancestors whose
children were all moved out, so they can be deleted too. -/
def pruneMarkedChain (st : EdState) : Nat → Option Nat → Option Nat → List Nat → List Nat
  | 0, _, _, marked => marked
  | _ + 1, none, _, marked => marked
  | fuel + 1, some p, lastRemoved, marked =>
    let cs := childrenOfK st p
    let hit :=
      cs.length == 0 ||
      (match lastRemoved, cs.getLast? with
       | some lr, some lastChild => lastChild == lr
       | _, _ => false)
    let marked2 := if hit then marked.filter (fun k => k != p) else marked
    let lastRemoved2 := if hit then some p else lastRemoved
    pruneMarkedChain st fuel (parentOfK st p) lastRemoved2 marked2

/-- `insertText(selection, text)` translated from
`OutlineSelectionHelpers.js`; fuel bounds the bounded re-entry the source
performs after retargeting the caret next to a segmented/immutable leaf.
`none` models a thrown invariant error. -/
def insertTextF : Nat → EdState → String → Option EdState
  | 0, _, _ => none
  | fuel + 1, st0, text =>
    let sel0 := st0.sel
    let isBefore := isCollapsedS sel0 || pointIsBefore st0 sel0.anchor sel0.focus
    let st1 :=
      if isBefore && sel0.anchor.ptype == PType.block then
        transferStartingBlockPointToTextPoint st0 true
      else if !isBefore && sel0.focus.ptype == PType.block then
        transferStartingBlockPointToTextPoint st0 false
      else st0
    let selectedNodes := getNodesOfSelection st1
    let selectedNodesLength := selectedNodes.length
    let textFormat := st1.sel.textFormat
    let firstPoint := if isBefore then st1.sel.anchor else st1.sel.focus
    let endPoint := if isBefore then st1.sel.focus else st1.sel.anchor
    let startOffset := firstPoint.offset
    let endOffset := endPoint.offset
    match selectedNodes with
    | [] => none
    | firstNodeKey0 :: _ =>
    match getTextProps st1 firstNodeKey0 with
    | none => none
    | some fp0 =>
    let firstNodeText := fp0.text
    let firstNodeTextLength := firstNodeText.length
    let special : Option EdState ⊕ (EdState × Nat) :=
      if fp0.segmented || fp0.immutable || !fp0.canInsertAtEnd then
        let offset := firstPoint.offset
        if isCollapsedS st1.sel && offset == firstNodeTextLength then
          let ns := getNextSiblingK st1 firstNodeKey0
          let stepA : EdState × Nat :=
            match ns with
            | some nsk =>
              if isTextK st1 nsk && !isImmutableOrInertK st1 nsk && !isSegmentedK st1 nsk then
                (st1, nsk)
              else
                let (stB, nk) := createTextNodeSt st1 ""
                (insertAfterNodeK stB firstNodeKey0 nk, nk)
            | none =>
              let (stB, nk) := createTextNodeSt st1 ""
              (insertAfterNodeK stB firstNodeKey0 nk, nk)
          let st2 := selectNodeRange stepA.1 stepA.2 0 0
          if text != "" then Sum.inl (insertTextF fuel st2 text)
          else Sum.inr (st2, stepA.2)
        else if isCollapsedS st1.sel && offset == 0 then
          let ps := getPreviousSiblingK st1 firstNodeKey0
          let stepA : EdState × Nat :=
            match ps with
            | some psk =>
              if isTextK st1 psk && !isImmutableOrInertK st1 psk && !isSegmentedK st1 psk then
                (st1, psk)
              else
                let (stB, nk) := createTextNodeSt st1 ""
                (insertBeforeNodeK stB firstNodeKey0 nk, nk)
            | none =>
              let (stB, nk) := createTextNodeSt st1 ""
              (insertBeforeNodeK stB firstNodeKey0 nk, nk)
          let st2 := selectNodeEnd stepA.1 stepA.2
          if text != "" then Sum.inl (insertTextF fuel st2 text)
          else Sum.inr (st2, stepA.2)
        else if fp0.segmented && offset != firstNodeTextLength then
          let (stB, nk) := createTextNodeSt st1 fp0.text
          Sum.inr (replaceNodeK stB firstNodeKey0 nk, nk)
        else Sum.inr (st1, firstNodeKey0)
      else Sum.inr (st1, firstNodeKey0)
    match special with
    | Sum.inl r => r
    | Sum.inr (st2, firstNodeKey) =>
      if selectedNodesLength == 1 then
        if isImmutableOrInertK st2 firstNodeKey then
          some (removeNodeK st2 firstNodeKey)
        else
          let firstNodeFormat := formatOfK st2 firstNodeKey
          if startOffset == endOffset && firstNodeFormat != textFormat then
            if textContentK st2 firstNodeKey == "" then
              let st3 := setFormatK st2 firstNodeKey textFormat
              some (spliceTextAndFixComposingAnchor st3 firstNodeKey startOffset
                (endOffset - startOffset) text)
            else
              let (st3, pieces) := splitTextNodeK st2 firstNodeKey [startOffset]
              let targetKey := pieces.headD firstNodeKey
              let (st4, tk) := createTextNodeSt st3 text
              let st5 := setFormatK st4 tk textFormat
              let st6 := insertAfterNodeK st5 targetKey tk
              some (selectNodeEnd st6 tk)
          else
            some (spliceTextAndFixComposingAnchor st2 firstNodeKey startOffset
              (endOffset - startOffset) text)
      else
        let lastNodeKey0 := selectedNodes.getLastD firstNodeKey
        let marked0 := getParentKeysK st2 firstNodeKey ++ getParentKeysK st2 lastNodeKey0
        let firstBlockQ := if isBlockK st2 firstNodeKey then some firstNodeKey
          else parentOfK st2 firstNodeKey
        let lastBlockQ := if isBlockK st2 lastNodeKey0 then some lastNodeKey0
          else parentOfK st2 lastNodeKey0
        match firstBlockQ, lastBlockQ with
        | some firstBlock, some lastBlock =>
          let step3 : EdState × Nat × List Nat :=
            if (endPoint.ptype == PType.text &&
                  (endOffset != 0 || textContentK st2 lastNodeKey0 == "")) ||
               (endPoint.ptype == PType.block &&
                  indexWithinParentK st2 lastNodeKey0 < endOffset) then
              if isTextK st2 lastNodeKey0 && !isImmutableOrInertK st2 lastNodeKey0 &&
                 endOffset != (textContentK st2 lastNodeKey0).length then
                let stepSeg : EdState × Nat :=
                  if isSegmentedK st2 lastNodeKey0 then
                    let (stB, nk) := createTextNodeSt st2 (textContentK st2 lastNodeKey0)
                    (replaceNodeK stB lastNodeKey0 nk, nk)
                  else (st2, lastNodeKey0)
                let stC := spliceTextNodeK stepSeg.1 stepSeg.2 0 endOffset "" false
                (stC, stepSeg.2, marked0 ++ [stepSeg.2])
              else (removeNodeK st2 lastNodeKey0, lastNodeKey0, marked0)
            else (st2, lastNodeKey0, marked0 ++ [lastNodeKey0])
          let st3 := step3.1
          let lastNodeKey := step3.2.1
          let marked1 := step3.2.2
          let lastNodeChildren := childrenOfK st3 lastBlock
          let blocksEq := firstBlock == lastBlock
          let st4 := moveOrRemoveRev firstNodeKey lastNodeKey selectedNodes blocksEq
            st3 lastNodeChildren.reverse
          let marked2 :=
            if !blocksEq then
              pruneMarkedChain st4 (st4.tree.nodes.length + 1) (some lastBlock) none marked1
            else marked1
          let st5 :=
            if !isImmutableOrInertK st4 firstNodeKey then
              spliceTextAndFixComposingAnchor st4 firstNodeKey startOffset
                (firstNodeTextLength - startOffset) text
            else if startOffset == firstNodeTextLength then
              selectNodeEnd st4 firstNodeKey
            else removeNodeK st4 firstNodeKey
          let st6 := (selectedNodes.drop 1).foldl
            (fun s k => if marked2.contains k then s else removeNodeK s k) st5
          some st6
        | _, _ => none

/-- `insertText` with enough fuel for the bounded re-entry of the source. -/
def insertText (st : EdState) (text : String) : Option EdState :=
  insertTextF (st.tree.nodes.length + 2) st text

/-- `removeText(selection)`. -/
def removeText (st : EdState) : Option EdState :=
  insertText st ""

/-- Split a character list at every character matching the predicate, the
way the regex split of the source does (consecutive separators produce empty
pieces; the empty input yields one empty piece). -/
def splitOnPred (p : Char → Bool) : List Char → List String
  | [] => [""]
  | c :: rest =>
    let r := splitOnPred p rest
    if p c then "" :: r
    else
      match r with
      | [] => [String.mk [c]]
      | h :: t => String.mk (c :: h.data) :: t

/-- The whitespace split of a string (`text.split(/\s/g)` of the source). -/
def splitWhitespace (s : String) : List String :=
  splitOnPred (fun c => c.isWhitespace) s.data

/-- The text that `removeSegment` leaves behind: the segments of the node
minus the adjacent one (last for backward, first for forward), rejoined
with single spaces. -/
def removeSegmentResultText (p : TextProps) (isBackward : Bool) : String :=
  let split := splitWhitespace p.text
  String.intercalate " " (if isBackward then split.dropLast else split.drop 1)

/-- `removeSegment(node, isBackward)` translated from
`OutlineSelectionHelpers.js`: drop the adjacent whitespace-delimited
segment, rejoin the rest with single spaces, remove the node when nothing
remains. -/
def removeSegment (st : EdState) (k : Nat) (isBackward : Bool) : EdState :=
  let textContent := textContentK st k
  let split := splitWhitespace textContent
  let split2 := if isBackward then split.dropLast else split.drop 1
  let nextTextContent := String.intercalate " " split2
  if nextTextContent == "" then removeNodeK st k
  else
    let st2 := setTextContentK st k nextTextContent
    if isBackward then selectNodeEnd st2 k
    else selectNodeRange st2 k 0 0

/-- `updateCaretSelectionForUnicodeCharacter` translated from
`OutlineSelectionHelpers.js`; `graphemeCheck` stands for
`doesContainGrapheme` of the external text helpers. -/
def updateCaretSelectionForUnicodeCharacter (graphemeCheck : String → Bool)
    (st : EdState) (isBackward : Bool) : EdState :=
  let anchor := st.sel.anchor
  let focus := st.sel.focus
  if anchor.key == focus.key && anchor.ptype == PType.text &&
     focus.ptype == PType.text then
    let anchorOffset := anchor.offset
    let focusOffset := focus.offset
    let isBefore := anchorOffset < focusOffset
    let startOffset := if isBefore then anchorOffset else focusOffset
    let endOffset := if isBefore then focusOffset else anchorOffset
    let characterOffset := endOffset - 1
    if startOffset != characterOffset then
      let text := strSlice (textContentK st anchor.key) startOffset endOffset
      if !graphemeCheck text then
        if isBackward then
          { st with sel := { st.sel with focus := { focus with offset := characterOffset } } }
        else
          { st with sel := { st.sel with anchor := { anchor with offset := characterOffset } } }
      else st
    else st
  else st

/-- `updateCaretSelectionForAdjacentHashtags` translated from
`OutlineSelectionHelpers.js`. -/
def updateCaretSelectionForAdjacentHashtags (st : EdState) : EdState :=
  let anchor := st.sel.anchor
  if anchor.ptype != PType.text then st
  else
    let anchorKey := anchor.key
    let textContent := textContentK st anchorKey
    let anchorOffset := anchor.offset
    if anchorOffset == 0 && isSimpleTextK st anchorKey then
      match getPreviousSiblingK st anchorKey with
      | some sib =>
        if isTextK st sib && isHashtagK st sib then
          let st2 := selectNodeEnd st sib
          let sibText := textContentK st2 sib
          let st3 := setTextContentK st2 sib (sibText ++ textContent)
          removeNodeK st3 anchorKey
        else st
      | none => st
    else if isHashtagK st anchorKey &&
            anchorOffset == (textContentK st anchorKey).length then
      match getNextSiblingK st anchorKey with
      | some sib =>
        if isTextK st sib && isSimpleTextK st sib then
          let sibText := textContentK st sib
          let st2 := setTextContentK st anchorKey (textContent ++ sibText)
          removeNodeK st2 sib
        else st
      | none => st
    else st

/-- Shared tail of `deleteCharacter`: `removeText` followed by
`updateCaretSelectionForAdjacentHashtags`. -/
def removeTextAndFixHashtags (st : EdState) : Option EdState :=
  (removeText st).map updateCaretSelectionForAdjacentHashtags

/-- `deleteCharacter(selection, isBackward)` translated from
`OutlineSelectionHelpers.js`.  `ucsr` stands for
`updateCaretSelectionForRange`, which delegates the one-character extension
to the presentation surface; `graphemeCheck` for `doesContainGrapheme`;
`collapseAtStartK` for the polymorphic `block.collapseAtStart(selection)`. -/
def deleteCharacter (ucsr : EdState → Bool → EdState) (graphemeCheck : String → Bool)
    (collapseAtStartK : EdState → Nat → Bool × EdState)
    (st0 : EdState) (isBackward : Bool) : Option EdState :=
  if isCollapsedS st0.sel then
    let st1 := ucsr st0 isBackward
    let anchor := st1.sel.anchor
    let focus := st1.sel.focus
    if !isCollapsedS st1.sel then
      let focusNodeQ := if focus.ptype == PType.text then some focus.key else none
      let anchorNodeQ := if anchor.ptype == PType.text then some anchor.key else none
      if (match focusNodeQ with
          | some k => isSegmentedK st1 k
          | none => false) then
        let k := focusNodeQ.getD 0
        let offset := focus.offset
        let textContentSize := (textContentK st1 k).length
        if anchorNodeQ == some k || (isBackward && offset != textContentSize) ||
           (!isBackward && offset != 0) then
          some (removeSegment st1 k isBackward)
        else
          removeTextAndFixHashtags (updateCaretSelectionForUnicodeCharacter graphemeCheck st1 isBackward)
      else if (match anchorNodeQ with
               | some k => isSegmentedK st1 k
               | none => false) then
        let k := anchorNodeQ.getD 0
        let offset := anchor.offset
        let textContentSize := (textContentK st1 k).length
        if some k == focusNodeQ || (isBackward && offset != 0) ||
           (!isBackward && offset != textContentSize) then
          some (removeSegment st1 k isBackward)
        else
          removeTextAndFixHashtags (updateCaretSelectionForUnicodeCharacter graphemeCheck st1 isBackward)
      else
        removeTextAndFixHashtags (updateCaretSelectionForUnicodeCharacter graphemeCheck st1 isBackward)
    else
      if isBackward && st1.sel.anchor.offset == 0 then
        let blockKeyQ :=
          if st1.sel.anchor.ptype == PType.block then some st1.sel.anchor.key
          else parentOfK st1 st1.sel.anchor.key
        match blockKeyQ with
        | none => none
        | some bk =>
          let step := collapseAtStartK st1 bk
          if step.1 then some step.2
          else removeTextAndFixHashtags step.2
      else removeTextAndFixHashtags st1
  else removeTextAndFixHashtags st0

/-- Modelled from the spec: `getTextNodeFormat` computes an XOR-style toggle
of the format bit against the node's current format; when a running value is
given, the leaf inherits it (the bit is forced on or off to align). -/
def getTextNodeFormatK (st : EdState) (k : Nat) (flag : Nat) (alignWith : Option Nat) : Nat :=
  let cur := formatOfK st k
  match alignWith with
  | none => cur ^^^ flag
  | some f =>
    if f &&& flag != 0 then cur ||| flag
    else cur ^^^ (cur &&& flag)

/-- The loop of `formatText` over the interior selected leaves, aligning
each with the running format value. -/
def formatInteriorLoop (flag firstK lastK lastNextFormat : Nat) :
    EdState → List Nat → EdState
  | st, [] => st
  | st, c :: rest =>
    let st2 :=
      if isTextK st c && c != firstK && c != lastK &&
         !(match getTextProps st c with
           | some p => p.immutable
           | none => false) then
        setFormatK st c (getTextNodeFormatK st c flag (some lastNextFormat))
      else st
    formatInteriorLoop flag firstK lastK lastNextFormat st2 rest

/-- `formatText(selection, formatType)` translated from
`OutlineSelectionHelpers.js`; a collapsed selection just toggles the
pending-insert format bit on the selection. -/
def formatText (st : EdState) (flag : Nat) : EdState :=
  let selectedNodes := getNodesOfSelection st
  let selectedNodesLength := selectedNodes.length
  let lastIndex := selectedNodesLength - 1
  if isCollapsedS st.sel then
    { st with sel := { st.sel with textFormat := st.sel.textFormat ^^^ flag } }
  else
    match selectedNodes with
    | [] => st
    | firstNodeK0 :: _ =>
      let lastNodeK0 := selectedNodes.getLastD firstNodeK0
      let anchor := st.sel.anchor
      let focus := st.sel.focus
      let firstNodeText := textContentK st firstNodeK0
      let firstNodeTextLength := firstNodeText.length
      let focusOffset := focus.offset
      let firstNextFormat0 :=
        match selectedNodes.find? (fun k => isTextK st k) with
        | some k => getTextNodeFormatK st k flag none
        | none => 0
      let anchorOffset0 := anchor.offset
      let isBefore := pointIsBefore st anchor focus
      let startOffset0 := if isBefore then anchorOffset0 else focusOffset
      let endOffset := if isBefore then focusOffset else anchorOffset0
      let adjust : Nat × Nat × Nat × Nat :=
        if startOffset0 == (textContentK st firstNodeK0).length then
          match getNextSiblingK st firstNodeK0 with
          | some ns =>
            if isTextK st ns then (0, 0, ns, getTextNodeFormatK st ns flag none)
            else (anchorOffset0, startOffset0, firstNodeK0, firstNextFormat0)
          | none => (anchorOffset0, startOffset0, firstNodeK0, firstNextFormat0)
        else (anchorOffset0, startOffset0, firstNodeK0, firstNextFormat0)
      let anchorOffset := adjust.1
      let startOffset := adjust.2.1
      let firstNodeK := adjust.2.2.1
      let firstNextFormat := adjust.2.2.2
      if firstNodeK == lastNodeK0 then
        if isTextK st firstNodeK then
          let s := if anchorOffset > focusOffset then focusOffset else anchorOffset
          let e := if anchorOffset > focusOffset then anchorOffset else focusOffset
          if s == e then st
          else if s == 0 && e == firstNodeTextLength then
            let st2 := setFormatK st firstNodeK firstNextFormat
            selectNodeRange st2 firstNodeK s e
          else
            let (st2, pieces) := splitTextNodeK st firstNodeK [s, e]
            let replacement := if s == 0 then pieces.headD firstNodeK
              else (pieces.drop 1).headD firstNodeK
            let st3 := setFormatK st2 replacement firstNextFormat
            selectNodeRange st3 replacement 0 (e - s)
        else st
      else
        let step1 : EdState × Nat :=
          if isTextK st firstNodeK then
            let stepSplit : EdState × Nat :=
              if startOffset != 0 then
                let (stA, pieces) := splitTextNodeK st firstNodeK [startOffset]
                (stA, (pieces.drop 1).headD firstNodeK)
              else (st, firstNodeK)
            (setFormatK stepSplit.1 stepSplit.2 firstNextFormat, stepSplit.2)
          else (st, firstNodeK)
        let stB := step1.1
        let firstNodeK2 := step1.2
        let step2 : EdState × Nat × Nat :=
          if isTextK stB lastNodeK0 then
            let lastNextFormat := getTextNodeFormatK stB lastNodeK0 flag (some firstNextFormat)
            let lastNodeTextLength := (textContentK stB lastNodeK0).length
            let stepSplit : EdState × Nat :=
              if endOffset != lastNodeTextLength then
                let (stC, pieces) := splitTextNodeK stB lastNodeK0 [endOffset]
                (stC, pieces.headD lastNodeK0)
              else (stB, lastNodeK0)
            (setFormatK stepSplit.1 stepSplit.2 lastNextFormat, stepSplit.2, lastNextFormat)
          else (stB, lastNodeK0, firstNextFormat)
        let stD := step2.1
        let lastNodeK := step2.2.1
        let lastNextFormat := step2.2.2
        formatInteriorLoop flag firstNodeK2 lastNodeK lastNextFormat stD
          ((selectedNodes.drop 1).take (lastIndex - 1))

/-- `getStyleObjectFromCSS`: look a css string up in the memo map. -/
def getStyleObjectFromCSS (st : EdState) (css : String) : Option (List (String × String)) :=
  st.styleCache.lookup css

/-- `getCSSFromStyleObject`: serialize a style mapping back to css text. -/
def getCSSFromStyleObject (styles : List (String × String)) : String :=
  styles.foldl (fun css kv =>
    if kv.1 != "" then css ++ kv.1 ++ ": " ++ kv.2 ++ ";" else css) ""

/-- Spread-merge of a patch over previous styles: previous keys keep their
order (patched in place), new patch keys are appended. -/
def mergeStyles (prev patch : List (String × String)) : List (String × String) :=
  (prev.map (fun kv => (kv.1, ((patch.lookup kv.1).getD kv.2)))) ++
    patch.filter (fun kv => (prev.lookup kv.1).isNone)

/-- `patchNodeStyle` translated from `OutlineSelectionHelpers.js`: merge the
patch over the parsed previous styles, write the css back and memoize it. -/
def patchNodeStyle (st : EdState) (k : Nat) (patch : List (String × String)) : EdState :=
  let prevStyles := getStyleObjectFromCSS st (styleOfK st k)
  let newStyles :=
    match prevStyles with
    | some p => mergeStyles p patch
    | none => patch
  let newCSSText := getCSSFromStyleObject newStyles
  let st2 := setStyleK st k newCSSText
  { st2 with styleCache := (newCSSText, newStyles) :: st2.styleCache }

/-- The loop of `patchStyleText` over the interior selected leaves. -/
def patchInteriorLoop (patch : List (String × String)) (firstK lastK : Nat) :
    EdState → List Nat → EdState
  | st, [] => st
  | st, c :: rest =>
    let st2 :=
      if isTextK st c && c != firstK && c != lastK &&
         !(match getTextProps st c with
           | some p => p.immutable
           | none => false) then
        patchNodeStyle st c patch
      else st
    patchInteriorLoop patch firstK lastK st2 rest

/-- `patchStyleText(selection, patch)` translated from
`OutlineSelectionHelpers.js`; a collapsed selection returns immediately
without touching any node. -/
def patchStyleText (st : EdState) (patch : List (String × String)) : EdState :=
  let selectedNodes := getNodesOfSelection st
  let selectedNodesLength := selectedNodes.length
  let lastIndex := selectedNodesLength - 1
  if isCollapsedS st.sel then st
  else
    match selectedNodes with
    | [] => st
    | firstNodeK0 :: _ =>
      let lastNodeK0 := selectedNodes.getLastD firstNodeK0
      let anchor := st.sel.anchor
      let focus := st.sel.focus
      let firstNodeText := textContentK st firstNodeK0
      let firstNodeTextLength := firstNodeText.length
      let focusOffset := focus.offset
      let anchorOffset0 := anchor.offset
      let isBefore := pointIsBefore st anchor focus
      let startOffset0 := if isBefore then anchorOffset0 else focusOffset
      let endOffset := if isBefore then focusOffset else anchorOffset0
      let adjust : Nat × Nat × Nat :=
        if startOffset0 == (textContentK st firstNodeK0).length then
          match getNextSiblingK st firstNodeK0 with
          | some ns =>
            if isTextK st ns then (0, 0, ns)
            else (anchorOffset0, startOffset0, firstNodeK0)
          | none => (anchorOffset0, startOffset0, firstNodeK0)
        else (anchorOffset0, startOffset0, firstNodeK0)
      let anchorOffset := adjust.1
      let startOffset := adjust.2.1
      let firstNodeK := adjust.2.2
      if firstNodeK == lastNodeK0 then
        if isTextK st firstNodeK then
          let s := if anchorOffset > focusOffset then focusOffset else anchorOffset
          let e := if anchorOffset > focusOffset then anchorOffset else focusOffset
          if s == e then st
          else if s == 0 && e == firstNodeTextLength then
            let st2 := patchNodeStyle st firstNodeK patch
            selectNodeRange st2 firstNodeK s e
          else
            let (st2, pieces) := splitTextNodeK st firstNodeK [s, e]
            let replacement := if s == 0 then pieces.headD firstNodeK
              else (pieces.drop 1).headD firstNodeK
            let st3 := patchNodeStyle st2 replacement patch
            selectNodeRange st3 replacement 0 (e - s)
        else st
      else
        let step1 : EdState × Nat :=
          if isTextK st firstNodeK then
            let stepSplit : EdState × Nat :=
              if startOffset != 0 then
                let (stA, pieces) := splitTextNodeK st firstNodeK [startOffset]
                (stA, (pieces.drop 1).headD firstNodeK)
              else (st, firstNodeK)
            (patchNodeStyle stepSplit.1 stepSplit.2 patch, stepSplit.2)
          else (st, firstNodeK)
        let stB := step1.1
        let firstNodeK2 := step1.2
        let step2 : EdState × Nat :=
          if isTextK stB lastNodeK0 then
            let lastNodeTextLength := (textContentK stB lastNodeK0).length
            let stepSplit : EdState × Nat :=
              if endOffset != lastNodeTextLength then
                let (stC, pieces) := splitTextNodeK stB lastNodeK0 [endOffset]
                (stC, pieces.headD lastNodeK0)
              else (stB, lastNodeK0)
            (patchNodeStyle stepSplit.1 stepSplit.2 patch, stepSplit.2)
          else (stB, lastNodeK0)
        let stD := step2.1
        let lastNodeK := step2.2
        patchInteriorLoop patch firstNodeK2 lastNodeK stD
          ((selectedNodes.drop 1).take (lastIndex - 1))

/-- `isElementNode`: the node is a container. -/
def isElementNodeS (n : NodeS) : Bool :=
  match n.body with
  | NodeBody.block _ _ => true
  | NodeBody.text _ => false

/-- `RootNode.select` always raises the invariant
`select: cannot be called on root nodes`. -/
def rootNodeSelect : Except String SelectionS :=
  Except.error "select: cannot be called on root nodes"

/-- `RootNode.remove` always raises the invariant
`remove: cannot be called on root nodes`. -/
def rootNodeRemove : Except String Unit :=
  Except.error "remove: cannot be called on root nodes"

/-- `RootNode.replace` always raises the invariant
`replace: cannot be called on root nodes`. -/
def rootNodeReplace : Except String NodeS :=
  Except.error "replace: cannot be called on root nodes"

/-- The guard loop of `RootNode.append`: raise the invariant at the first
node to append that is not an element (container) node. -/
def rootNodeAppendCheck : List NodeS → Except String Unit
  | [] => Except.ok ()
  | n :: rest =>
    if !isElementNodeS n then
      Except.error "rootNode.append: Only element nodes can be appended to the root node"
    else rootNodeAppendCheck rest

/-- `RootNode.append` translated from the source: check every node to
append, then defer to the element append (modelled from the spec as
child-list extension). -/
def rootNodeAppend (children : List Nat) (toAppend : List (Nat × NodeS)) :
    Except String (List Nat) :=
  match rootNodeAppendCheck (toAppend.map (fun e => e.2)) with
  | Except.error e => Except.error e
  | Except.ok _ => Except.ok (children ++ toAppend.map (fun e => e.1))

/-- Whether an `Except` result is a success. -/
def exceptIsOk {α : Type} (e : Except String α) : Bool :=
  match e with
  | Except.ok _ => true
  | Except.error _ => false

/-- An abstract view-model snapshot for the update engine: identity,
abstract content, and the per-cycle dirty flags consumed at commit time. -/
structure VModel where
  vid : Nat
  content : Nat
  dirtyNodes : Bool
  dirtySel : Bool
deriving DecidableEq, Repr

/-- Editor-host state owned by the update engine. -/
structure EditorS where
  viewModel : VModel
  pendingViewModel : Option VModel
  updateTimeStamp : Nat
  listenerLog : List VModel
  nextVid : Nat
deriving DecidableEq, Repr

/-- Modelled from the spec: `commitPendingUpdates` atomically swaps
current ← pending, returns to Idle and synchronously notifies every update
listener with the committed view model (recorded in the log). -/
def commitPendingUpdates (e : EditorS) : EditorS :=
  match e.pendingViewModel with
  | none => e
  | some p =>
    { e with viewModel := p, pendingViewModel := none,
             listenerLog := e.listenerLog ++ [p] }

/-- Modelled from the spec: `cloneViewModel` takes a cheap structural copy
of the current snapshot under a fresh identity; the per-cycle dirty sets
start out empty. -/
def cloneViewModel (v : VModel) (freshId : Nat) : VModel :=
  { vid := freshId, content := v.content, dirtyNodes := false, dirtySel := false }

/-- Modelled from the spec: `createSelection` equips a fresh draft with a
selection derived from the current state, which by itself is not a material
selection change. -/
def createSelectionOnDraft (v : VModel) : VModel :=
  v

/-- The JavaScript comparison `this._updateTimeStamp !== timeStamp`: a
number never equals `undefined`. -/
def tsDiffers (cur : Nat) (ts : Option Nat) : Bool :=
  match ts with
  | none => true
  | some t => cur != t

/-- Result of one `OutlineEditor.update` call: the returned boolean, the
editor state afterwards, and the per-call observables (whether an
outstanding draft was force-committed, whether a fresh draft was cloned,
the draft handed to the callback, the draft left at the end of the scope,
whether the commit ran synchronously, and whether a deferred commit was
scheduled on the microtask queue). -/
structure UpdateTrace where
  returned : Bool
  editor : EditorS
  forceCommitted : Bool
  cloned : Bool
  draftPassedToCallback : VModel
  finalDraft : VModel
  syncCommitted : Bool
  scheduledDeferredCommit : Bool
deriving DecidableEq, Repr

/-- The tail of `OutlineEditor.update`: decide `shouldUpdate` from the
draft's dirtiness, and either discard the draft (return false), commit
synchronously (no timestamp), or leave the pending draft for the scheduled
microtask (timestamp supplied, scheduling only on a fresh clone). -/
def finishUpdate (ts : Option Nat) (forced wasCloned : Bool) (draft1 draft3 : VModel)
    (e3 : EditorS) : UpdateTrace :=
  let shouldUpdate := draft3.dirtyNodes || draft3.dirtySel
  if !shouldUpdate then
    { returned := false, editor := { e3 with pendingViewModel := none },
      forceCommitted := forced, cloned := wasCloned,
      draftPassedToCallback := draft1, finalDraft := draft3,
      syncCommitted := false, scheduledDeferredCommit := false }
  else
    match ts with
    | none =>
      { returned := true, editor := commitPendingUpdates e3,
        forceCommitted := forced, cloned := wasCloned,
        draftPassedToCallback := draft1, finalDraft := draft3,
        syncCommitted := true, scheduledDeferredCommit := false }
    | some _ =>
      { returned := true, editor := e3,
        forceCommitted := forced, cloned := wasCloned,
        draftPassedToCallback := draft1, finalDraft := draft3,
        syncCommitted := false, scheduledDeferredCommit := wasCloned }

namespace OutlineEditor

/-- `OutlineEditor.update(callbackFn, timeStamp?)` translated from
`OutlineEditor.js`.  `tfgc` stands for the
`applyTextTransforms; garbageCollectDetachedNodes` pass run when the draft
has dirty nodes; `cb` is the update callback acting on the draft. -/
def update (tfgc : VModel → VModel) (cb : VModel → VModel) (ts : Option Nat)
    (e0 : EditorS) : UpdateTrace :=
  let pending0 := e0.pendingViewModel
  let forced := tsDiffers e0.updateTimeStamp ts && pending0.isSome
  let e1 :=
    if tsDiffers e0.updateTimeStamp ts then
      let eA := if pending0.isSome then commitPendingUpdates e0 else e0
      match ts with
      | some t => { eA with updateTimeStamp := t }
      | none => eA
    else e0
  let pending1 := if tsDiffers e0.updateTimeStamp ts then none else pending0
  let step : EditorS × VModel × Bool :=
    match pending1 with
    | none =>
      let d := cloneViewModel e1.viewModel e1.nextVid
      ({ e1 with pendingViewModel := some d, nextVid := e1.nextVid + 1 }, d, true)
    | some d => (e1, d, false)
  let e2 := step.1
  let draft0 := step.2.1
  let wasCloned := step.2.2
  let draft1 := if wasCloned then createSelectionOnDraft draft0 else draft0
  let draft2 := cb draft1
  let draft3 := if draft2.dirtyNodes then tfgc draft2 else draft2
  let e3 := { e2 with pendingViewModel := some draft3 }
  finishUpdate ts forced wasCloned draft1 draft3 e3

end OutlineEditor

/-- Build an editing state from a node list, fresh-key counter and the two
selection points (text format 0, empty style memo). -/
def mkState (nodes : List (Nat × NodeS)) (nk : Nat) (a f : PointS) : EdState :=
  { tree := { nodes := nodes, nextKey := nk },
    sel := { anchor := a, focus := f, textFormat := 0 },
    styleCache := [] }

/-- A plain text leaf node under the given parent. -/
def mkTextNode (parent : Nat) (s : String) : NodeS :=
  ⟨some parent, NodeBody.text (defaultTextProps s)⟩

/-- Tree `Root→Paragraph→Text "ab"`, collapsed selection at offset 1 in the
leaf (concrete scenario 2 of the spec). -/
def oneLeafState : EdState :=
  mkState
    [(0, ⟨none, NodeBody.block [1] true⟩),
     (1, ⟨some 0, NodeBody.block [2] false⟩),
     (2, mkTextNode 1 "ab")]
    3 ⟨2, 1, PType.text⟩ ⟨2, 1, PType.text⟩

/-- Tree `Root→Paragraph→Text "foo"+Text "bar"`, selection from
`(Text "foo", 1)` to `(Text "bar", 2)` (concrete scenario 3 of the spec). -/
def twoLeafState : EdState :=
  mkState
    [(0, ⟨none, NodeBody.block [1] true⟩),
     (1, ⟨some 0, NodeBody.block [2, 3] false⟩),
     (2, mkTextNode 1 "foo"),
     (3, mkTextNode 1 "bar")]
    4 ⟨2, 1, PType.text⟩ ⟨3, 2, PType.text⟩

/-- `oneLeafState` with the leaf in composition-in-progress. -/
def composingOneLeafState : EdState :=
  mkState
    [(0, ⟨none, NodeBody.block [1] true⟩),
     (1, ⟨some 0, NodeBody.block [2] false⟩),
     (2, ⟨some 1, NodeBody.text { defaultTextProps "ab" with composing := true }⟩)]
    3 ⟨2, 1, PType.text⟩ ⟨2, 1, PType.text⟩

/-- `twoLeafState` with the first leaf in composition-in-progress. -/
def composingTwoLeafState : EdState :=
  mkState
    [(0, ⟨none, NodeBody.block [1] true⟩),
     (1, ⟨some 0, NodeBody.block [2, 3] false⟩),
     (2, ⟨some 1, NodeBody.text { defaultTextProps "foo" with composing := true }⟩),
     (3, mkTextNode 1 "bar")]
    4 ⟨2, 1, PType.text⟩ ⟨3, 2, PType.text⟩

/-- A segmented leaf `"aaa bbb"` followed by a plain leaf `"x"`, caret
collapsed at the start of the plain leaf. -/
def segmentedState : EdState :=
  mkState
    [(0, ⟨none, NodeBody.block [1] true⟩),
     (1, ⟨some 0, NodeBody.block [2, 3] false⟩),
     (2, ⟨some 1, NodeBody.text { defaultTextProps "aaa bbb" with segmented := true }⟩),
     (3, mkTextNode 1 "x")]
    4 ⟨3, 0, PType.text⟩ ⟨3, 0, PType.text⟩

/-- `segmentedState` after a one-character backward extension of the caret
into the segmented leaf, as the presentation surface reports it. -/
def segmentedExtendedState : EdState :=
  { segmentedState with sel :=
      { segmentedState.sel with focus := ⟨2, 6, PType.text⟩ } }

/-- An editor with an outstanding dirty pending draft recorded at
timestamp 0. -/
def dirtyPendingEditor : EditorS :=
  { viewModel := ⟨0, 0, false, false⟩, pendingViewModel := some ⟨1, 7, true, false⟩,
    updateTimeStamp := 0, listenerLog := [], nextVid := 2 }

/-- An idle editor: no pending draft. -/
def idleEditor : EditorS :=
  { viewModel := ⟨0, 0, false, false⟩, pendingViewModel := none,
    updateTimeStamp := 0, listenerLog := [], nextVid := 1 }

theorem lookup_filter_ne (m : List (Nat × NodeS)) (k : Nat) :
    (m.filter (fun e => e.1 != k)).lookup k = none := by
  induction m with
  | nil => rfl
  | cons e t ih =>
    obtain ⟨ek, ev⟩ := e
    by_cases h : ek = k
    · subst h
      simp only [List.filter_cons, bne_self_eq_false, Bool.false_eq_true, if_false]
      exact ih
    · have hb : (ek != k) = true := by simp [h]
      have hk : (k == ek) = false := beq_eq_false_iff_ne.mpr (Ne.symm h)
      simp only [List.filter_cons, hb, if_true, List.lookup_cons, hk]
      exact ih

theorem lookup_map_overwrite (k : Nat) (n : NodeS) :
    ∀ m : List (Nat × NodeS), m.any (fun e => e.1 == k) = true →
    (m.map (fun e => if e.1 == k then (k, n) else e)).lookup k = some n := by
  intro m
  induction m with
  | nil => intro h; simp at h
  | cons e t ih =>
    obtain ⟨ek, ev⟩ := e
    intro h
    by_cases he : ek = k
    · subst he
      simp [List.lookup_cons]
    · have hb : (ek == k) = false := beq_eq_false_iff_ne.mpr he
      have hk : (k == ek) = false := beq_eq_false_iff_ne.mpr (Ne.symm he)
      have ht : t.any (fun e => e.1 == k) = true := by
        simpa [List.any_cons, hb] using h
      simp only [List.map_cons, hb, Bool.false_eq_true, if_false, List.lookup_cons, hk]
      exact ih ht

theorem any_false_lookup_none (k : Nat) :
    ∀ m : List (Nat × NodeS), m.any (fun e => e.1 == k) = false →
    m.lookup k = none := by
  intro m
  induction m with
  | nil => intro _; rfl
  | cons e t ih =>
    obtain ⟨ek, ev⟩ := e
    intro h
    simp only [List.any_cons, Bool.or_eq_false_iff] at h
    have hk : (k == ek) = false := by
      have : (ek == k) = false := h.1
      exact beq_eq_false_iff_ne.mpr (Ne.symm (beq_eq_false_iff_ne.mp this))
    simp only [List.lookup_cons, hk]
    exact ih h.2

theorem lookup_append_single (m : List (Nat × NodeS)) (k : Nat) (n : NodeS)
    (h : m.lookup k = none) : (m ++ [(k, n)]).lookup k = some n := by
  induction m with
  | nil => simp [List.lookup_cons]
  | cons e t ih =>
    obtain ⟨ek, ev⟩ := e
    by_cases hk : (k == ek) = true
    · simp only [List.lookup_cons, hk] at h
      exact Option.noConfusion h
    · have hk2 : (k == ek) = false := by simpa using hk
      simp only [List.lookup_cons, hk2] at h
      simp only [List.cons_append, List.lookup_cons, hk2]
      exact ih h

theorem lookup_setNodeList_self (m : List (Nat × NodeS)) (k : Nat) (n : NodeS) :
    (setNodeList m k n).lookup k = some n := by
  unfold setNodeList
  by_cases h : m.any (fun e => e.1 == k) = true
  · rw [if_pos h]
    exact lookup_map_overwrite k n m h
  · have h2 : m.any (fun e => e.1 == k) = false := by
      cases hh : m.any (fun e => e.1 == k)
      · rfl
      · exact absurd hh h
    rw [if_neg h]
    exact lookup_append_single m k n (any_false_lookup_none k m h2)

theorem getTextProps_some_lookup (st : EdState) (k : Nat) (p : TextProps)
    (h : getTextProps st k = some p) :
    ∃ par, lookupNode st k = some ⟨par, NodeBody.text p⟩ := by
  unfold getTextProps at h
  match hl : lookupNode st k with
  | none => rw [hl] at h; cases h
  | some ⟨par, NodeBody.text q⟩ =>
    rw [hl] at h
    simp at h
    subst h
    exact ⟨par, rfl⟩
  | some ⟨par, NodeBody.block cs r⟩ => rw [hl] at h; cases h

theorem getTextProps_setTextPropsK_self (st : EdState) (k : Nat) (p0 p : TextProps)
    (h : getTextProps st k = some p0) :
    getTextProps (setTextPropsK st k p) k = some p := by
  obtain ⟨par, hl⟩ := getTextProps_some_lookup st k p0 h
  unfold setTextPropsK
  rw [hl]
  unfold getTextProps lookupNode setNodeK
  simp [lookup_setNodeList_self]

theorem lookupNode_removeNodeK_self (st : EdState) (k : Nat) (n : NodeS)
    (h : lookupNode st k = some n) :
    lookupNode (removeNodeK st k) k = none := by
  unfold removeNodeK
  rw [h]
  unfold lookupNode delNodeK
  cases n.parent <;> simp [lookup_filter_ne, mapChildrenK]

theorem rootNodeAppendCheck_ok_iff (l : List NodeS) :
    (rootNodeAppendCheck l = Except.ok ()) ↔ l.all isElementNodeS = true := by
  induction l with
  | nil => simp [rootNodeAppendCheck]
  | cons n rest ih =>
    by_cases h : isElementNodeS n = true
    · simp [rootNodeAppendCheck, h, ih]
    · have h2 : isElementNodeS n = false := by
        cases hh : isElementNodeS n
        · rfl
        · exact absurd hh h
      simp [rootNodeAppendCheck, h2]

theorem all_map_snd (l : List (Nat × NodeS)) :
    (l.map (fun e => e.2)).all isElementNodeS = l.all (fun e => isElementNodeS e.2) := by
  induction l with
  | nil => rfl
  | cons e t ih => simp only [List.map_cons, List.all_cons, ih]

/-- C5: on `Root→Paragraph→Text "ab"` with a collapsed selection at offset 1
inside the leaf, `insertText(selection, "X")` makes the leaf read `"aXb"`
and leaves the selection collapsed at offset 2 in that leaf. -/
theorem insertText_collapsed_inserts_at_caret :
    (insertText oneLeafState "X").map
        (fun st => (textContentK st 2, st.sel.anchor, st.sel.focus)) =
      some ("aXb", ⟨2, 2, PType.text⟩, ⟨2, 2, PType.text⟩) := by
  decide

/-- C4: on `Root→Paragraph→Text "foo"+Text "bar"` with selection from
`(Text "foo", 1)` to `(Text "bar", 2)`, `insertText(selection, "")` leaves
the document text content `"fr"`: `"oo"` is dropped from the first leaf and
`"ba"` from the second. -/
theorem insertText_range_delete_across_two_leaves :
    (insertText twoLeafState "").map
        (fun st => (documentText st, textContentK st 2, textContentK st 3)) =
      some ("fr", "f", "r") := by
  decide

/-- C7: on a collapsed selection, `formatText` toggles exactly the
selection's pending-insert format bit, mutates no node, and applying it
twice restores the original state. -/
theorem formatText_collapsed_toggles_pending_bit (st : EdState) (flag : Nat)
    (h : isCollapsedS st.sel = true) :
    formatText st flag =
      { st with sel := { st.sel with textFormat := st.sel.textFormat ^^^ flag } } ∧
    formatText (formatText st flag) flag = st := by
  constructor
  · simp only [formatText, h, if_true]
  · have h1 : formatText st flag =
        { st with sel := { st.sel with textFormat := st.sel.textFormat ^^^ flag } } := by
      simp only [formatText, h, if_true]
    rw [h1]
    have h2 : isCollapsedS { st.sel with textFormat := st.sel.textFormat ^^^ flag } = true := by
      simpa [isCollapsedS] using h
    simp only [formatText, h2, if_true]
    rw [Nat.xor_cancel_right]

/-- Witness for C7 at a concrete collapsed selection. -/
theorem formatText_collapsed_toggles_pending_bit_witness :
    formatText oneLeafState 1 =
      { oneLeafState with sel := { oneLeafState.sel with textFormat := 1 } } ∧
    formatText (formatText oneLeafState 1) 1 = oneLeafState := by
  have h := formatText_collapsed_toggles_pending_bit oneLeafState 1 (by decide)
  exact h

/-- C10: on a collapsed selection, `patchStyleText` returns without touching
anything: the state (every node's text, format, style, children, the
selection and the style memo) is exactly as before. -/
theorem patchStyleText_collapsed_is_noop (st : EdState) (patch : List (String × String))
    (h : isCollapsedS st.sel = true) :
    patchStyleText st patch = st := by
  simp only [patchStyleText, h, if_true]

/-- Witness for C10 at a concrete collapsed selection. -/
theorem patchStyleText_collapsed_is_noop_witness :
    patchStyleText oneLeafState [("color", "red")] = oneLeafState :=
  patchStyleText_collapsed_is_noop oneLeafState [("color", "red")] (by decide)

/-- C9: `select`, `remove` and `replace` on the root always raise the fatal
invariant, and `append` on the root succeeds exactly when every node being
appended is an element (container) node, so the root only ever gains
container children. -/
theorem rootNode_guards :
    exceptIsOk rootNodeSelect = false ∧
    exceptIsOk rootNodeRemove = false ∧
    exceptIsOk rootNodeReplace = false ∧
    ∀ (children : List Nat) (toAppend : List (Nat × NodeS)),
      exceptIsOk (rootNodeAppend children toAppend) =
        toAppend.all (fun e => isElementNodeS e.2) := by
  refine ⟨rfl, rfl, rfl, ?_⟩
  intro children toAppend
  by_cases h : (toAppend.map (fun e => e.2)).all isElementNodeS = true
  · have hok := (rootNodeAppendCheck_ok_iff (toAppend.map (fun e => e.2))).mpr h
    rw [all_map_snd] at h
    simp only [rootNodeAppend, hok, exceptIsOk]
    exact h.symm
  · have h2 : ¬ rootNodeAppendCheck (toAppend.map (fun e => e.2)) = Except.ok () :=
      fun hok => h ((rootNodeAppendCheck_ok_iff _).mp hok)
    match hc : rootNodeAppendCheck (toAppend.map (fun e => e.2)) with
    | Except.ok u =>
      exact absurd (by rw [hc]) h2
    | Except.error msg =>
      have h3 : (toAppend.map (fun e => e.2)).all isElementNodeS = false := by
        cases hh : (toAppend.map (fun e => e.2)).all isElementNodeS
        · rfl
        · exact absurd hh h
      rw [all_map_snd] at h3
      simp only [rootNodeAppend, hc, exceptIsOk]
      exact h3.symm

theorem removeSegment_effect (st : EdState) (k : Nat) (isBackward : Bool) (p : TextProps)
    (hp : getTextProps st k = some p) :
    (removeSegmentResultText p isBackward = "" →
       lookupNode (removeSegment st k isBackward) k = none) ∧
    (removeSegmentResultText p isBackward ≠ "" →
       textContentK (removeSegment st k isBackward) k =
         removeSegmentResultText p isBackward) := by
  obtain ⟨par, hl⟩ := getTextProps_some_lookup st k p hp
  have htc : textContentK st k = p.text := by
    unfold textContentK
    rw [hp]
  constructor
  · intro h
    have hb : (removeSegmentResultText p isBackward == "") = true := by
      rw [h]
      rfl
    unfold removeSegment
    rw [htc]
    have hb2 : (String.intercalate " "
        (if isBackward then (splitWhitespace p.text).dropLast
         else (splitWhitespace p.text).drop 1) == "") = true := hb
    simp only [hb2, if_true]
    exact lookupNode_removeNodeK_self st k ⟨par, NodeBody.text p⟩ hl
  · intro h
    have hb : (String.intercalate " "
        (if isBackward then (splitWhitespace p.text).dropLast
         else (splitWhitespace p.text).drop 1) == "") = false := by
      have : ¬ (removeSegmentResultText p isBackward == "") = true := by
        intro hx
        exact h (by simpa using hx)
      cases hx : (removeSegmentResultText p isBackward == "")
      · exact hx
      · exact absurd hx this
    unfold removeSegment
    rw [htc]
    simp only [hb, Bool.false_eq_true, if_false]
    have hset : textContentK (setTextContentK st k (removeSegmentResultText p isBackward)) k =
        removeSegmentResultText p isBackward := by
      unfold setTextContentK
      rw [hp]
      unfold textContentK
      rw [getTextProps_setTextPropsK_self st k p _ hp]
    cases isBackward
    · exact hset
    · exact hset

/-- C6: when a collapsed `deleteCharacter` (backward or forward) extends the
selection into a segmented text leaf (at either endpoint, per the source's
guards), `removeSegment` runs instead of a one-character delete: exactly the
adjacent whitespace-delimited segment is dropped, the remaining segments are
rejoined with single spaces, and the node itself is removed when no segment
remains. -/
theorem deleteCharacter_segmented_removes_adjacent_segment
    (ucsr : EdState → Bool → EdState) (g : String → Bool)
    (caf : EdState → Nat → Bool × EdState)
    (st0 st1 : EdState) (isBackward : Bool) (p : TextProps)
    (hst1 : ucsr st0 isBackward = st1)
    (h0 : isCollapsedS st0.sel = true)
    (h1 : isCollapsedS st1.sel = false) :
    (st1.sel.focus.ptype = PType.text →
      getTextProps st1 st1.sel.focus.key = some p →
      p.segmented = true →
      ((st1.sel.anchor.ptype = PType.text ∧ st1.sel.anchor.key = st1.sel.focus.key) ∨
        (isBackward = true ∧ st1.sel.focus.offset ≠ p.text.length) ∨
        (isBackward = false ∧ st1.sel.focus.offset ≠ 0)) →
      deleteCharacter ucsr g caf st0 isBackward =
          some (removeSegment st1 st1.sel.focus.key isBackward) ∧
      (removeSegmentResultText p isBackward = "" →
        lookupNode (removeSegment st1 st1.sel.focus.key isBackward)
          st1.sel.focus.key = none) ∧
      (removeSegmentResultText p isBackward ≠ "" →
        textContentK (removeSegment st1 st1.sel.focus.key isBackward)
            st1.sel.focus.key = removeSegmentResultText p isBackward)) ∧
    ((st1.sel.focus.ptype = PType.text → isSegmentedK st1 st1.sel.focus.key = false) →
      st1.sel.anchor.ptype = PType.text →
      getTextProps st1 st1.sel.anchor.key = some p →
      p.segmented = true →
      ((st1.sel.focus.ptype = PType.text ∧ st1.sel.focus.key = st1.sel.anchor.key) ∨
        (isBackward = true ∧ st1.sel.anchor.offset ≠ 0) ∨
        (isBackward = false ∧ st1.sel.anchor.offset ≠ p.text.length)) →
      deleteCharacter ucsr g caf st0 isBackward =
          some (removeSegment st1 st1.sel.anchor.key isBackward) ∧
      (removeSegmentResultText p isBackward = "" →
        lookupNode (removeSegment st1 st1.sel.anchor.key isBackward)
          st1.sel.anchor.key = none) ∧
      (removeSegmentResultText p isBackward ≠ "" →
        textContentK (removeSegment st1 st1.sel.anchor.key isBackward)
            st1.sel.anchor.key = removeSegmentResultText p isBackward)) := by
  constructor
  · intro hft hp hseg hguard
    have hsegK : isSegmentedK st1 st1.sel.focus.key = true := by
      unfold isSegmentedK
      rw [hp]
      exact hseg
    have htcs : textContentK st1 st1.sel.focus.key = p.text := by
      unfold textContentK
      rw [hp]
    have heff := removeSegment_effect st1 st1.sel.focus.key isBackward p hp
    refine ⟨?_, heff.1, heff.2⟩
    have hgb : ((if st1.sel.anchor.ptype == PType.text then some st1.sel.anchor.key
          else none) == some st1.sel.focus.key ||
        (isBackward && st1.sel.focus.offset != (textContentK st1 st1.sel.focus.key).length) ||
        (!isBackward && st1.sel.focus.offset != 0)) = true := by
      rw [htcs]
      rcases hguard with ⟨ha, hk⟩ | ⟨hb, ho⟩ | ⟨hb, ho⟩
      · simp [ha, hk]
      · simp [hb, bne_iff_ne, ho]
      · simp [hb, bne_iff_ne, ho]
    simp only [deleteCharacter, hst1, h0, if_true, h1, Bool.not_false, hft,
      beq_self_eq_true, hsegK, Option.getD_some, hgb]
  · intro hnf hat hp hseg hguard
    have hsegK : isSegmentedK st1 st1.sel.anchor.key = true := by
      unfold isSegmentedK
      rw [hp]
      exact hseg
    have htcs : textContentK st1 st1.sel.anchor.key = p.text := by
      unfold textContentK
      rw [hp]
    have heff := removeSegment_effect st1 st1.sel.anchor.key isBackward p hp
    refine ⟨?_, heff.1, heff.2⟩
    have hfocus : (match (if st1.sel.focus.ptype == PType.text then some st1.sel.focus.key
          else none) with
        | some k => isSegmentedK st1 k
        | none => false) = false := by
      cases hfp : st1.sel.focus.ptype
      · simp only [hfp, beq_self_eq_true, if_true]
        exact hnf hfp
      · simp [hfp]
    have hgb : (some st1.sel.anchor.key ==
          (if st1.sel.focus.ptype == PType.text then some st1.sel.focus.key else none) ||
        (isBackward && st1.sel.anchor.offset != 0) ||
        (!isBackward && st1.sel.anchor.offset != (textContentK st1 st1.sel.anchor.key).length)) = true := by
      rw [htcs]
      rcases hguard with ⟨ha, hk⟩ | ⟨hb, ho⟩ | ⟨hb, ho⟩
      · simp [ha, hk]
      · simp [hb, bne_iff_ne, ho]
      · simp [hb, bne_iff_ne, ho]
    simp only [deleteCharacter, hst1, h0, if_true, h1, Bool.not_false, hfocus,
      Bool.false_eq_true, if_false, hat, beq_self_eq_true, hsegK, Option.getD_some, hgb]

/-- Witness for C6: a backward collapsed delete whose one-character
extension lands inside the segmented leaf `"aaa bbb"` removes exactly the
trailing segment, leaving `"aaa"`. -/
theorem deleteCharacter_segmented_removes_adjacent_segment_witness :
    deleteCharacter (fun _ _ => segmentedExtendedState) (fun _ => true)
        (fun s _ => (false, s)) segmentedState true =
      some (removeSegment segmentedExtendedState 2 true) ∧
    textContentK (removeSegment segmentedExtendedState 2 true) 2 = "aaa" := by
  have h := (deleteCharacter_segmented_removes_adjacent_segment
      (fun _ _ => segmentedExtendedState) (fun _ => true) (fun s _ => (false, s))
      segmentedState segmentedExtendedState true
      { defaultTextProps "aaa bbb" with segmented := true }
      rfl (by decide) (by decide)).1
      rfl (by decide) rfl (Or.inr (Or.inl ⟨rfl, by decide⟩))
  have hnt : removeSegmentResultText
      { defaultTextProps "aaa bbb" with segmented := true } true = "aaa" := by decide
  refine ⟨h.1, ?_⟩
  have h2 := h.2.2 (by rw [hnt]; decide)
  have h3 : textContentK (removeSegment segmentedExtendedState 2 true) 2 =
      removeSegmentResultText { defaultTextProps "aaa bbb" with segmented := true } true := h2
  rw [h3, hnt]

/-- C8: where `insertText` splices into a composing first node with a text
anchor, the anchor offset is compensated by subtracting `text.length` (not
re-derived) and the focus offset is left where the splice put it; the two
closing equations exercise the single-leaf and multi-leaf branches of
`insertText` on composing leaves. -/
theorem insertText_composing_adjusts_anchor_only :
    (∀ (st : EdState) (k off del : Nat) (text : String) (p : TextProps),
      getTextProps st k = some p →
      p.composing = true →
      (p.text.take off ++ text ++ p.text.drop (off + del)) ≠ "" →
      (spliceTextAndFixComposingAnchor st k off del text).sel.anchor =
          (⟨k, off, PType.text⟩ : PointS) ∧
      (spliceTextAndFixComposingAnchor st k off del text).sel.focus =
          (⟨k, off + text.length, PType.text⟩ : PointS)) ∧
    (insertText composingOneLeafState "X").map (fun s => (s.sel.anchor, s.sel.focus)) =
      some (⟨2, 1, PType.text⟩, ⟨2, 2, PType.text⟩) ∧
    (insertText composingTwoLeafState "X").map (fun s => (s.sel.anchor, s.sel.focus)) =
      some (⟨2, 1, PType.text⟩, ⟨2, 2, PType.text⟩) := by
  refine ⟨?_, by decide, by decide⟩
  intro st k off del text p hp hcomp hne
  have hsplice : spliceTextNodeK st k off del text true =
      selectNodeRange (setTextPropsK st k
        { p with text := p.text.take off ++ text ++ p.text.drop (off + del) })
        k (off + text.length) (off + text.length) := by
    unfold spliceTextNodeK
    rw [hp]
    rfl
  have hset := getTextProps_setTextPropsK_self st k p
    { p with text := p.text.take off ++ text ++ p.text.drop (off + del) } hp
  have htc : textContentK (selectNodeRange (setTextPropsK st k
      { p with text := p.text.take off ++ text ++ p.text.drop (off + del) })
      k (off + text.length) (off + text.length)) k =
      p.text.take off ++ text ++ p.text.drop (off + del) := by
    show textContentK (setTextPropsK st k
      { p with text := p.text.take off ++ text ++ p.text.drop (off + del) }) k = _
    unfold textContentK
    rw [hset]
  have hnb : (textContentK (selectNodeRange (setTextPropsK st k
      { p with text := p.text.take off ++ text ++ p.text.drop (off + del) })
      k (off + text.length) (off + text.length)) k == "") = false := by
    rw [htc]
    cases hx : (p.text.take off ++ text ++ p.text.drop (off + del) == "")
    · rfl
    · exact absurd (by simpa using hx) hne
  have hcmp : isComposingK (selectNodeRange (setTextPropsK st k
      { p with text := p.text.take off ++ text ++ p.text.drop (off + del) })
      k (off + text.length) (off + text.length)) k = true := by
    show isComposingK (setTextPropsK st k
      { p with text := p.text.take off ++ text ++ p.text.drop (off + del) }) k = true
    unfold isComposingK
    rw [hset]
    exact hcomp
  have hcnd : (isComposingK (selectNodeRange (setTextPropsK st k
      { p with text := p.text.take off ++ text ++ p.text.drop (off + del) })
      k (off + text.length) (off + text.length)) k &&
      ((selectNodeRange (setTextPropsK st k
        { p with text := p.text.take off ++ text ++ p.text.drop (off + del) })
        k (off + text.length) (off + text.length)).sel.anchor.ptype == PType.text)) = true := by
    rw [hcmp]
    rfl
  unfold spliceTextAndFixComposingAnchor
  rw [hsplice]
  simp only [hnb, hcnd, Bool.false_eq_true, if_false, eq_self_iff_true, if_true]
  constructor
  · show ({ key := k, offset := off + text.length - text.length, ptype := PType.text } : PointS) =
      { key := k, offset := off, ptype := PType.text }
    rw [Nat.add_sub_cancel]
  · rfl

/-- C1 counterexample: calling `update` with a callback that marks nothing
dirty and leaves the selection unchanged, but while a dirty pending draft
from an earlier timestamp is outstanding, force-commits that draft during
the call: a listener is invoked and the current view model reference
changes, contradicting the claim as stated. -/
theorem update_noop_claim_counterexample :
    (OutlineEditor.update id id (some 1) dirtyPendingEditor).draftPassedToCallback.dirtyNodes
        = false ∧
    (OutlineEditor.update id id (some 1) dirtyPendingEditor).draftPassedToCallback.dirtySel
        = false ∧
    (OutlineEditor.update id id (some 1) dirtyPendingEditor).returned = false ∧
    (OutlineEditor.update id id (some 1) dirtyPendingEditor).editor.viewModel ≠
      dirtyPendingEditor.viewModel ∧
    (OutlineEditor.update id id (some 1) dirtyPendingEditor).editor.listenerLog ≠
      dirtyPendingEditor.listenerLog := by
  decide

/-- C1 (amended): starting from an Idle editor (no pending draft), an update
whose callback marks no node dirty and does not materially change the
selection returns false, leaves the pending view model null, keeps the
current view model reference unchanged, and invokes no update listener. -/
theorem update_noop_is_noop_when_idle (tfgc cb : VModel → VModel) (ts : Option Nat)
    (e : EditorS) (hpend : e.pendingViewModel = none)
    (hdn : (cb (createSelectionOnDraft (cloneViewModel e.viewModel e.nextVid))).dirtyNodes = false)
    (hds : (cb (createSelectionOnDraft (cloneViewModel e.viewModel e.nextVid))).dirtySel = false) :
    (OutlineEditor.update tfgc cb ts e).returned = false ∧
    (OutlineEditor.update tfgc cb ts e).editor.pendingViewModel = none ∧
    (OutlineEditor.update tfgc cb ts e).editor.viewModel = e.viewModel ∧
    (OutlineEditor.update tfgc cb ts e).editor.listenerLog = e.listenerLog := by
  simp only [createSelectionOnDraft] at hdn hds
  cases ts with
  | none =>
    simp [OutlineEditor.update, finishUpdate, hpend, tsDiffers, createSelectionOnDraft,
      hdn, hds]
  | some t =>
    by_cases ht : e.updateTimeStamp = t
    · have htb : (e.updateTimeStamp != t) = false := by simp [ht]
      simp [OutlineEditor.update, finishUpdate, hpend, tsDiffers, htb,
        createSelectionOnDraft, hdn, hds]
    · have htb : (e.updateTimeStamp != t) = true := by simp [ht]
      simp [OutlineEditor.update, finishUpdate, hpend, tsDiffers, htb,
        createSelectionOnDraft, hdn, hds]

/-- Witness for the amended C1 at a concrete idle editor. -/
theorem update_noop_is_noop_when_idle_witness :
    (OutlineEditor.update id id none idleEditor).returned = false ∧
    (OutlineEditor.update id id none idleEditor).editor.pendingViewModel = none ∧
    (OutlineEditor.update id id none idleEditor).editor.viewModel = idleEditor.viewModel ∧
    (OutlineEditor.update id id none idleEditor).editor.listenerLog = idleEditor.listenerLog :=
  update_noop_is_noop_when_idle id id none idleEditor rfl rfl rfl

/-- C2: while a pending draft exists, an update whose timestamp differs from
the last recorded one first force-commits the outstanding draft (a listener
sees it, the current view model becomes it) and hands the callback a fresh
clone of the now-current view model; an update with the same timestamp runs
the callback on the existing pending draft, makes no new clone, and commits
nothing during the call. -/
theorem update_coalesces_by_timestamp (tfgc cb : VModel → VModel) (t : Nat)
    (e : EditorS) (p : VModel) (hpend : e.pendingViewModel = some p) :
    (e.updateTimeStamp ≠ t →
      (OutlineEditor.update tfgc cb (some t) e).forceCommitted = true ∧
      (OutlineEditor.update tfgc cb (some t) e).cloned = true ∧
      (OutlineEditor.update tfgc cb (some t) e).draftPassedToCallback =
        createSelectionOnDraft (cloneViewModel p e.nextVid) ∧
      (OutlineEditor.update tfgc cb (some t) e).editor.viewModel = p ∧
      (OutlineEditor.update tfgc cb (some t) e).editor.listenerLog =
        e.listenerLog ++ [p]) ∧
    (e.updateTimeStamp = t →
      (OutlineEditor.update tfgc cb (some t) e).forceCommitted = false ∧
      (OutlineEditor.update tfgc cb (some t) e).cloned = false ∧
      (OutlineEditor.update tfgc cb (some t) e).draftPassedToCallback = p ∧
      (OutlineEditor.update tfgc cb (some t) e).editor.nextVid = e.nextVid ∧
      (OutlineEditor.update tfgc cb (some t) e).editor.listenerLog = e.listenerLog) := by
  constructor
  · intro ht
    have htb : (e.updateTimeStamp != t) = true := by simp [ht]
    simp [OutlineEditor.update, finishUpdate, hpend, tsDiffers, htb, commitPendingUpdates,
      createSelectionOnDraft]
    split <;> (try split) <;> and_intros <;> rfl
  · intro ht
    have htb : (e.updateTimeStamp != t) = false := by simp [ht]
    simp [OutlineEditor.update, finishUpdate, hpend, tsDiffers, htb, createSelectionOnDraft]
    split <;> (try split) <;> and_intros <;> rfl

/-- Witness for C2 at a concrete editor with an outstanding draft: a
differing timestamp (5 vs 0) force-commits, a matching timestamp (0)
coalesces. -/
theorem update_coalesces_by_timestamp_witness :
    ((OutlineEditor.update id id (some 5) dirtyPendingEditor).forceCommitted = true ∧
     (OutlineEditor.update id id (some 5) dirtyPendingEditor).cloned = true ∧
     (OutlineEditor.update id id (some 5) dirtyPendingEditor).draftPassedToCallback =
       createSelectionOnDraft (cloneViewModel ⟨1, 7, true, false⟩ dirtyPendingEditor.nextVid) ∧
     (OutlineEditor.update id id (some 5) dirtyPendingEditor).editor.viewModel =
       ⟨1, 7, true, false⟩ ∧
     (OutlineEditor.update id id (some 5) dirtyPendingEditor).editor.listenerLog =
       dirtyPendingEditor.listenerLog ++ [⟨1, 7, true, false⟩]) ∧
    ((OutlineEditor.update id id (some 0) dirtyPendingEditor).forceCommitted = false ∧
     (OutlineEditor.update id id (some 0) dirtyPendingEditor).cloned = false ∧
     (OutlineEditor.update id id (some 0) dirtyPendingEditor).draftPassedToCallback =
       ⟨1, 7, true, false⟩ ∧
     (OutlineEditor.update id id (some 0) dirtyPendingEditor).editor.nextVid =
       dirtyPendingEditor.nextVid ∧
     (OutlineEditor.update id id (some 0) dirtyPendingEditor).editor.listenerLog =
       dirtyPendingEditor.listenerLog) := by
  have h1 := (update_coalesces_by_timestamp id id 5 dirtyPendingEditor
      ⟨1, 7, true, false⟩ rfl).1 (by decide)
  have h2 := (update_coalesces_by_timestamp id id 0 dirtyPendingEditor
      ⟨1, 7, true, false⟩ rfl).2 rfl
  exact ⟨h1, h2⟩

theorem finishUpdate_finalDraft (ts : Option Nat) (f w : Bool) (d1 d3 : VModel)
    (e3 : EditorS) : (finishUpdate ts f w d1 d3 e3).finalDraft = d3 := by
  cases ts <;> cases hd : d3.dirtyNodes <;> cases hs : d3.dirtySel <;>
    simp [finishUpdate, hd, hs]

theorem finishUpdate_forceCommitted (ts : Option Nat) (f w : Bool) (d1 d3 : VModel)
    (e3 : EditorS) : (finishUpdate ts f w d1 d3 e3).forceCommitted = f := by
  cases ts <;> cases hd : d3.dirtyNodes <;> cases hs : d3.dirtySel <;>
    simp [finishUpdate, hd, hs]

theorem finishUpdate_retTrue_none (f w : Bool) (d1 d3 : VModel) (e3 : EditorS)
    (hpend3 : e3.pendingViewModel = some d3)
    (h : (finishUpdate none f w d1 d3 e3).returned = true) :
    (finishUpdate none f w d1 d3 e3).syncCommitted = true ∧
    (finishUpdate none f w d1 d3 e3).editor.pendingViewModel = none ∧
    (finishUpdate none f w d1 d3 e3).editor.viewModel = d3 ∧
    (finishUpdate none f w d1 d3 e3).editor.listenerLog = e3.listenerLog ++ [d3] := by
  cases hd : d3.dirtyNodes <;> cases hs : d3.dirtySel <;>
    simp_all [finishUpdate, commitPendingUpdates]

theorem finishUpdate_retTrue_some (t : Nat) (f w : Bool) (d1 d3 : VModel) (e3 : EditorS)
    (h : (finishUpdate (some t) f w d1 d3 e3).returned = true) :
    (finishUpdate (some t) f w d1 d3 e3).syncCommitted = false ∧
    (finishUpdate (some t) f w d1 d3 e3).editor = e3 ∧
    ((finishUpdate (some t) f w d1 d3 e3).cloned = true →
      (finishUpdate (some t) f w d1 d3 e3).scheduledDeferredCommit = true) := by
  cases hd : d3.dirtyNodes <;> cases hs : d3.dirtySel <;>
    simp_all [finishUpdate]

/-- C3: when an update decides to commit (it returns true): with no
timestamp the commit runs synchronously before `update` returns (pending is
null, the current view model is the finished draft, the last listener call
saw it); with a timestamp no commit runs synchronously (the draft stays
pending, only a force-commit could have touched the listener log) and, when
a fresh draft was cloned, a deferred commit is scheduled on the
microtask-equivalent queue, so same-timestamp calls coalesce into one
commit. -/
theorem update_commit_scheduling (tfgc cb : VModel → VModel) (ts : Option Nat)
    (e : EditorS) (hret : (OutlineEditor.update tfgc cb ts e).returned = true) :
    (ts = none →
      (OutlineEditor.update tfgc cb ts e).syncCommitted = true ∧
      (OutlineEditor.update tfgc cb ts e).editor.pendingViewModel = none ∧
      (OutlineEditor.update tfgc cb ts e).editor.viewModel =
        (OutlineEditor.update tfgc cb ts e).finalDraft ∧
      (OutlineEditor.update tfgc cb ts e).editor.listenerLog.getLast? =
        some (OutlineEditor.update tfgc cb ts e).finalDraft) ∧
    (∀ t, ts = some t →
      (OutlineEditor.update tfgc cb ts e).syncCommitted = false ∧
      (OutlineEditor.update tfgc cb ts e).editor.pendingViewModel =
        some (OutlineEditor.update tfgc cb ts e).finalDraft ∧
      (OutlineEditor.update tfgc cb ts e).editor.listenerLog.length =
        e.listenerLog.length +
          (if (OutlineEditor.update tfgc cb ts e).forceCommitted = true then 1 else 0) ∧
      ((OutlineEditor.update tfgc cb ts e).cloned = true →
        (OutlineEditor.update tfgc cb ts e).scheduledDeferredCommit = true)) := by
  constructor
  · intro hts
    subst hts
    cases hp : e.pendingViewModel with
    | none =>
      simp only [OutlineEditor.update] at hret ⊢
      simp [tsDiffers, hp, commitPendingUpdates, createSelectionOnDraft] at hret ⊢
      have hfin := finishUpdate_retTrue_none _ _ _ _ _ rfl hret
      refine ⟨hfin.1, hfin.2.1, ?_, ?_⟩
      · rw [finishUpdate_finalDraft]
        exact hfin.2.2.1
      · rw [finishUpdate_finalDraft, hfin.2.2.2]
        exact List.getLast?_concat _
    | some p =>
      simp only [OutlineEditor.update] at hret ⊢
      simp [tsDiffers, hp, commitPendingUpdates, createSelectionOnDraft] at hret ⊢
      have hfin := finishUpdate_retTrue_none _ _ _ _ _ rfl hret
      refine ⟨hfin.1, hfin.2.1, ?_, ?_⟩
      · rw [finishUpdate_finalDraft]
        exact hfin.2.2.1
      · rw [finishUpdate_finalDraft, hfin.2.2.2]
        exact List.getLast?_concat _
  · intro t hts
    subst hts
    by_cases ht : e.updateTimeStamp = t
    · have htb : (e.updateTimeStamp != t) = false := by simp [ht]
      cases hp : e.pendingViewModel with
      | none =>
        simp only [OutlineEditor.update] at hret ⊢
        simp [tsDiffers, htb, hp, commitPendingUpdates, createSelectionOnDraft] at hret ⊢
        have hfin := finishUpdate_retTrue_some _ _ _ _ _ _ hret
        refine ⟨hfin.1, ?_, ?_, hfin.2.2⟩
        · rw [finishUpdate_finalDraft, hfin.2.1]
        · rw [finishUpdate_forceCommitted, hfin.2.1]
          simp
      | some p =>
        simp only [OutlineEditor.update] at hret ⊢
        simp [tsDiffers, htb, hp, commitPendingUpdates, createSelectionOnDraft] at hret ⊢
        have hfin := finishUpdate_retTrue_some _ _ _ _ _ _ hret
        refine ⟨hfin.1, ?_, ?_, hfin.2.2⟩
        · rw [finishUpdate_finalDraft, hfin.2.1]
        · rw [finishUpdate_forceCommitted, hfin.2.1]
          simp
    · have htb : (e.updateTimeStamp != t) = true := by simp [ht]
      cases hp : e.pendingViewModel with
      | none =>
        simp only [OutlineEditor.update] at hret ⊢
        simp [tsDiffers, htb, hp, commitPendingUpdates, createSelectionOnDraft] at hret ⊢
        have hfin := finishUpdate_retTrue_some _ _ _ _ _ _ hret
        refine ⟨hfin.1, ?_, ?_, hfin.2.2⟩
        · rw [finishUpdate_finalDraft, hfin.2.1]
        · rw [finishUpdate_forceCommitted, hfin.2.1]
          simp
      | some p =>
        simp only [OutlineEditor.update] at hret ⊢
        simp [tsDiffers, htb, hp, commitPendingUpdates, createSelectionOnDraft] at hret ⊢
        have hfin := finishUpdate_retTrue_some _ _ _ _ _ _ hret
        refine ⟨hfin.1, ?_, ?_, hfin.2.2⟩
        · rw [finishUpdate_finalDraft, hfin.2.1]
        · rw [finishUpdate_forceCommitted, hfin.2.1]
          simp [List.length_append]

/-- Witness for C3 at a concrete editor and a dirtying callback: without a
timestamp the commit is synchronous; with timestamp 3 the draft stays
pending and a deferred commit is scheduled. -/
theorem update_commit_scheduling_witness :
    ((OutlineEditor.update id (fun v => { v with dirtyNodes := true }) none
        idleEditor).syncCommitted = true ∧
     (OutlineEditor.update id (fun v => { v with dirtyNodes := true }) none
        idleEditor).editor.pendingViewModel = none ∧
     (OutlineEditor.update id (fun v => { v with dirtyNodes := true }) none
        idleEditor).editor.viewModel =
       (OutlineEditor.update id (fun v => { v with dirtyNodes := true }) none
        idleEditor).finalDraft ∧
     (OutlineEditor.update id (fun v => { v with dirtyNodes := true }) none
        idleEditor).editor.listenerLog.getLast? =
       some (OutlineEditor.update id (fun v => { v with dirtyNodes := true }) none
        idleEditor).finalDraft) ∧
    ((OutlineEditor.update id (fun v => { v with dirtyNodes := true }) (some 3)
        idleEditor).syncCommitted = false ∧
     (OutlineEditor.update id (fun v => { v with dirtyNodes := true }) (some 3)
        idleEditor).editor.pendingViewModel =
       some (OutlineEditor.update id (fun v => { v with dirtyNodes := true }) (some 3)
        idleEditor).finalDraft ∧
     (OutlineEditor.update id (fun v => { v with dirtyNodes := true }) (some 3)
        idleEditor).editor.listenerLog.length =
       idleEditor.listenerLog.length +
         (if (OutlineEditor.update id (fun v => { v with dirtyNodes := true }) (some 3)
            idleEditor).forceCommitted = true then 1 else 0) ∧
     ((OutlineEditor.update id (fun v => { v with dirtyNodes := true }) (some 3)
        idleEditor).cloned = true →
       (OutlineEditor.update id (fun v => { v with dirtyNodes := true }) (some 3)
        idleEditor).scheduledDeferredCommit = true)) := by
  have h1 := (update_commit_scheduling id (fun v => { v with dirtyNodes := true }) none
    idleEditor (by decide)).1 rfl
  have h2 := (update_commit_scheduling id (fun v => { v with dirtyNodes := true }) (some 3)
    idleEditor (by decide)).2 3 rfl
  exact ⟨h1, h2⟩

/-- Witness for C8: splicing one character into a composing leaf at offset 1
leaves the anchor compensated back to offset 1 while the focus sits after
the inserted text. -/
theorem insertText_composing_adjusts_anchor_only_witness :
    (spliceTextAndFixComposingAnchor composingOneLeafState 2 1 0 "X").sel.anchor =
        (⟨2, 1, PType.text⟩ : PointS) ∧
    (spliceTextAndFixComposingAnchor composingOneLeafState 2 1 0 "X").sel.focus =
        (⟨2, 2, PType.text⟩ : PointS) := by
  have h := insertText_composing_adjusts_anchor_only.1 composingOneLeafState 2 1 0 "X"
      { defaultTextProps "ab" with composing := true } (by decide) rfl (by decide)
  exact h
